import Mathlib

set_option maxRecDepth 16000

/-! Shallow embedding of the deterministic core of the Mock-Interview
repository: the resume-text extractors (`backend/src/utils/pdfParser.ts`
and the simpler variant of the same module shipped in the repository),
the deterministic answer analyzer and score calculator
(`backend/src/routes/performance.ts`), and the smart question generator
(`backend/src/routes/questions.ts`).

Modelling conventions: JavaScript strings are modelled as `List Char`
(named `Str` below) so that every operation is a total, kernel-computable
function — all inputs of interest are ASCII; JS numbers are `ℚ` (every
score computation in the source is exact rational arithmetic); JS object
fields that may be `undefined` are `Option`; a JS `throw` is the `error`
case of `Except String`. -/

/-- A JavaScript string, modelled as its character list. -/
abbrev Str := List Char

/-! ## JS string primitives -/

/-- Is the first character list a prefix of the second? -/
def charsPre : Str → Str → Bool
  | [], _ => true
  | _ :: _, [] => false
  | a :: as, b :: bs => a = b && charsPre as bs

/-- JS `String.prototype.includes`: contiguous substring test. -/
def jsIncludes : (s sub : Str) → Bool
  | [], sub => sub.isEmpty
  | c :: cs, sub => charsPre sub (c :: cs) || jsIncludes cs sub

/-- JS `String.prototype.startsWith`. -/
def jsStartsWith (s sub : Str) : Bool := charsPre sub s

/-- JS `\s` character class (for the ASCII inputs of interest this is
exactly `Char.isWhitespace`). -/
def jsIsWs (c : Char) : Bool := c.isWhitespace

/-- JS `\w` character class: `[A-Za-z0-9_]`. -/
def jsIsWordChar (c : Char) : Bool := c.isAlphanum || c = '_'

/-- JS `toLowerCase` (ASCII). -/
def jsToLower (s : Str) : Str := s.map Char.toLower

/-- JS `String.prototype.trim`: strip leading and trailing whitespace. -/
def jsTrim (s : Str) : Str :=
  ((s.dropWhile jsIsWs).reverse.dropWhile jsIsWs).reverse

/-- Split at every single occurrence of a separator character, keeping
empty segments — the behavior of JS `split('c')`. -/
def splitEveryGo (isSep : Char → Bool) : Str → Str → List Str
  | [], acc => [acc.reverse]
  | c :: cs, acc =>
    if isSep c then acc.reverse :: splitEveryGo isSep cs []
    else splitEveryGo isSep cs (c :: acc)

/-- JS `split('c')` for a one-character separator. -/
def splitEvery (isSep : Char → Bool) (s : Str) : List Str :=
  splitEveryGo isSep s []

/-- Split at maximal runs of separator characters, keeping (possibly
empty) boundary segments — the behavior of JS `split(/[seps]+/)`.  The
`inSep` flag records whether a separator run is currently being skipped. -/
def splitRunsGo (isSep : Char → Bool) : Str → Bool → Str → List Str
  | [], _, acc => [acc.reverse]
  | c :: cs, inSep, acc =>
    if isSep c then
      if inSep then splitRunsGo isSep cs true acc
      else acc.reverse :: splitRunsGo isSep cs true []
    else splitRunsGo isSep cs false (c :: acc)

/-- JS `split(/[seps]+/)`. -/
def splitRuns (isSep : Char → Bool) (s : Str) : List Str :=
  splitRunsGo isSep s false []

/-- JS `text.split(/\s+/).filter(w => w.length > 0)`: the whitespace
separated words of a string. -/
def jsWords (s : Str) : List Str :=
  (splitRuns jsIsWs s).filter (fun w => 0 < w.length)

/-- JS `text.split('\n').map(l => l.trim()).filter(l => l.length > 0)` —
the non-empty trimmed lines consumed by every extractor. -/
def linesOf (text : Str) : List Str :=
  ((splitEvery (fun c => c = '\n') text).map jsTrim).filter (fun l => 0 < l.length)

/-- The iterator of JS `new Set(xs)`: keep an element when it has not
been seen yet. -/
def jsSetDedupGo {α : Type} [DecidableEq α] (seen : List α) : List α → List α
  | [] => []
  | x :: xs =>
    if x ∈ seen then jsSetDedupGo seen xs
    else x :: jsSetDedupGo (x :: seen) xs

/-- JS `[...new Set(xs)]`: remove exact duplicates, keeping the first
occurrence of each element in order. -/
def jsSetDedup {α : Type} [DecidableEq α] (l : List α) : List α :=
  jsSetDedupGo [] l

/-- JS `Math.round`: round half toward positive infinity. -/
def jsRound (q : ℚ) : ℤ := ⌊q + 1/2⌋

/-- JS `Math.min` on two (non-NaN) numbers. -/
def jsMin (a b : ℚ) : ℚ := if a ≤ b then a else b

/-- JS `Math.max` on two (non-NaN) numbers. -/
def jsMax (a b : ℚ) : ℚ := if b ≤ a then a else b

/-! ## backend/src/routes/performance.ts — deterministic answer analysis -/

namespace Performance

/-- An element of the `answers` array received by the performance route;
only its `answer` text is consulted by the analyzer. -/
structure Answer where
  answer : Str
deriving Repr, DecidableEq

structure JobDetails where
  title : Str
  company : Str
  description : Str
  requirements : Str
deriving Repr, DecidableEq

/-- The aggregate feature vector built by `analyzeAnswers`
(performance.ts lines 476-548). -/
structure Analysis where
  totalWords : ℕ
  averageLength : ℚ
  technicalTerms : ℕ
  experienceMentions : ℕ
  problemSolving : ℕ
  specificExamples : ℕ
  communicationQuality : ℕ
  nonsensicalAnswers : ℕ
  poorQualityAnswers : ℕ
  meaningfulAnswers : ℕ
deriving Repr, DecidableEq

/-- JS `/(.)\1{2,}/.test`: some character other than a newline (JS `.`
does not match `\n`) repeated at least three times consecutively. -/
def hasTripleRun : Str → Bool
  | a :: b :: c :: rest => (a = b && b = c && a != '\n') || hasTripleRun (b :: c :: rest)
  | _ => false

/-- `isNonsensicalAnswer` (performance.ts lines 550-572); `text` is already
lowercased and trimmed by the caller.  The five regex patterns of the
source are, in order: 1-4 letters only; only non-alphanumeric,
non-whitespace characters; only digits and whitespace; a character
repeated three or more times; 1-4 consonants only. -/
def isNonsensicalAnswer (text : Str) (wordCount : ℕ) : Bool :=
  if wordCount ≤ 1 then true
  else if wordCount ≤ 4 then
    (1 ≤ text.length && text.length ≤ 4 && text.all (fun c => c.isAlpha))
    || text.all (fun c => !c.isAlphanum && !jsIsWs c)
    || text.all (fun c => c.isDigit || jsIsWs c)
    || hasTripleRun text
    || (1 ≤ text.length && text.length ≤ 4 &&
        text.all (fun c => "bcdfghjklmnpqrstvwxyz".toList.contains c.toLower))
  else false

/-- The `meaningfulWords` vocabulary of `isPoorQualityAnswer`
(performance.ts lines 580-585). -/
def meaningfulWords : List Str :=
  ["worked", "developed", "created", "built", "implemented", "designed",
   "managed", "led", "collaborated", "solved", "challenge", "problem",
   "experience", "project", "team", "result", "outcome", "success",
   "learned", "improved", "optimized", "enhanced", "achieved"].map String.toList

/-- `isPoorQualityAnswer` (performance.ts lines 574-592). -/
def isPoorQualityAnswer (text : Str) (wordCount : ℕ) : Bool :=
  if wordCount < 10 then true
  else if wordCount < 20 then
    !(meaningfulWords.any (fun w => jsIncludes text w))
  else false

/-- The technical-term substrings probed at performance.ts lines 511-514. -/
def technicalVocab : List Str :=
  ["technology", "software", "system", "development", "coding", "programming",
   "api", "database", "framework", "react", "node", "javascript"].map String.toList

/-- The experience-mention substrings probed at performance.ts lines 519-521. -/
def experienceVocab : List Str :=
  ["experience", "worked", "project", "developed", "implemented", "built",
   "created", "managed", "led"].map String.toList

/-- The problem-solving substrings probed at performance.ts lines 526-528. -/
def problemVocab : List Str :=
  ["challenge", "problem", "solved", "overcame", "difficult", "troubleshoot",
   "debug", "fix", "issue"].map String.toList

/-- The specific-example substrings probed at performance.ts lines 533-535. -/
def exampleVocab : List Str :=
  ["example", "specific", "instance", "case", "situation", "time when",
   "once", "when i"].map String.toList

/-- The per-answer body of the `answers.forEach` loop of `analyzeAnswers`
(performance.ts lines 490-543). -/
def analyzeStep (acc : Analysis) (ans : Answer) : Analysis :=
  let text := jsTrim (jsToLower ans.answer)
  let wordCount := (jsWords text).length
  let acc := { acc with
    totalWords := acc.totalWords + wordCount,
    averageLength := acc.averageLength + (wordCount : ℚ) }
  if isNonsensicalAnswer text wordCount then
    { acc with nonsensicalAnswers := acc.nonsensicalAnswers + 1 }
  else
    let acc :=
      if isPoorQualityAnswer text wordCount then
        { acc with poorQualityAnswers := acc.poorQualityAnswers + 1 }
      else
        { acc with meaningfulAnswers := acc.meaningfulAnswers + 1 }
    let acc :=
      if technicalVocab.any (fun w => jsIncludes text w) then
        { acc with technicalTerms := acc.technicalTerms + 1 }
      else acc
    let acc :=
      if experienceVocab.any (fun w => jsIncludes text w) then
        { acc with experienceMentions := acc.experienceMentions + 1 }
      else acc
    let acc :=
      if problemVocab.any (fun w => jsIncludes text w) then
        { acc with problemSolving := acc.problemSolving + 1 }
      else acc
    let acc :=
      if exampleVocab.any (fun w => jsIncludes text w) then
        { acc with specificExamples := acc.specificExamples + 1 }
      else acc
    if 20 ≤ wordCount && wordCount ≤ 200 &&
        1 < (splitRuns (fun c => c = '.' || c = '!' || c = '?') text).length then
      { acc with communicationQuality := acc.communicationQuality + 1 }
    else acc

/-- `analyzeAnswers` (performance.ts lines 476-548).  The final statement
divides the accumulated word total by `answers.length`; on an empty batch
this is JS `0/0 = NaN`, modelled by Lean's `0 / 0 = 0` convention on `ℚ` —
the score calculator never reads this field, so the convention is
unobservable in the theorems below. -/
def analyzeAnswers (answers : List Answer) : Analysis :=
  let a := answers.foldl analyzeStep ⟨0, 0, 0, 0, 0, 0, 0, 0, 0, 0⟩
  { a with averageLength := a.averageLength / (answers.length : ℚ) }

/-- The quadruple of scores produced by `calculateScores`. -/
structure Scores where
  overall : ℚ
  technical : ℚ
  behavioral : ℚ
  communication : ℚ
deriving Repr, DecidableEq

/-- `calculateScores` (performance.ts lines 594-679).  The `answers` and
`jobDetails` parameters are accepted and ignored exactly as in the source. -/
def calculateScores (answers : List Answer) (analysis : Analysis)
    (jobDetails : JobDetails) : Scores :=
  if 0 < analysis.nonsensicalAnswers then
    { overall := jsMin 15 ((analysis.nonsensicalAnswers : ℚ) * 5)
      technical := jsMin 10 ((analysis.nonsensicalAnswers : ℚ) * 3)
      behavioral := jsMin 10 ((analysis.nonsensicalAnswers : ℚ) * 3)
      communication := jsMin 15 ((analysis.nonsensicalAnswers : ℚ) * 4) }
  else if 0 < analysis.poorQualityAnswers then
    let poorQualityPenalty : ℚ := (analysis.poorQualityAnswers : ℚ) * 20
    let technical : ℚ :=
      if 0 < analysis.technicalTerms then
        jsMin ((analysis.technicalTerms : ℚ) * 15) 100
      else 0
    let technical := jsMax 0 (technical - poorQualityPenalty)
    let behavioral : ℚ :=
      if 0 < analysis.problemSolving ∨ 0 < analysis.specificExamples then
        jsMin (((analysis.problemSolving : ℚ) + (analysis.specificExamples : ℚ)) * 12) 100
      else 0
    let behavioral := jsMax 0 (behavioral - poorQualityPenalty)
    let communication : ℚ :=
      if 0 < analysis.communicationQuality then
        jsMin ((analysis.communicationQuality : ℚ) * 20) 100
      else 0
    let communication := jsMax 0 (communication - poorQualityPenalty)
    let overall := jsMax 0 ((technical + behavioral + communication) / 3 - poorQualityPenalty)
    ⟨overall, technical, behavioral, communication⟩
  else
    let s : Scores :=
      if 0 < analysis.meaningfulAnswers then
        let technical : ℚ :=
          if 0 < analysis.technicalTerms then
            jsMin ((analysis.technicalTerms : ℚ) * 20) 100
          else 0
        let behavioral : ℚ :=
          if 0 < analysis.problemSolving ∨ 0 < analysis.specificExamples then
            jsMin (((analysis.problemSolving : ℚ) + (analysis.specificExamples : ℚ)) * 15) 100
          else 0
        let communication : ℚ :=
          if 0 < analysis.communicationQuality then
            jsMin ((analysis.communicationQuality : ℚ) * 25) 100
          else 0
        ⟨(technical + behavioral + communication) / 3, technical, behavioral, communication⟩
      else ⟨0, 0, 0, 0⟩
    { overall := jsMax 0 (jsMin 100 s.overall)
      technical := jsMax 0 (jsMin 100 s.technical)
      behavioral := jsMax 0 (jsMin 100 s.behavioral)
      communication := jsMax 0 (jsMin 100 s.communication) }

/-- The four rounded scores assembled by `generateSmartAnalysis`
(performance.ts lines 447-474): `(overallScore, technicalScore,
behavioralScore, communicationScore)`.  The feedback fields of the
returned object are produced by independent string builders that feed no
score, and `completionRate` is likewise computed but never used for a
score; neither is modelled. -/
def generateSmartAnalysisScores {α : Type} (questions : List α)
    (answers : List Answer) (jobDetails : JobDetails) : ℤ × ℤ × ℤ × ℤ :=
  let answerAnalysis := analyzeAnswers answers
  let scores := calculateScores answers answerAnalysis jobDetails
  (jsRound scores.overall, jsRound scores.technical,
   jsRound scores.behavioral, jsRound scores.communication)

/-- The scores emitted by the nonsensical regime of `calculateScores`:
a function of the nonsensical-answer count alone. -/
def nonsensePenaltyScores (n : ℕ) : Scores :=
  { overall := jsMin 15 ((n : ℚ) * 5)
    technical := jsMin 10 ((n : ℚ) * 3)
    behavioral := jsMin 10 ((n : ℚ) * 3)
    communication := jsMin 15 ((n : ℚ) * 4) }

/-- A job-details record used by the concrete evaluations below; none of
the modelled score computations read any of its fields. -/
def demoJob : JobDetails :=
  { title := "Software Engineer".toList, company := "Acme".toList,
    description := [], requirements := [] }

/-- An aggregate analysis with two nonsensical answers and every positive
signal set high, exercising the nonsensical regime. -/
def c2Analysis : Analysis :=
  { totalWords := 400, averageLength := 40, technicalTerms := 9,
    experienceMentions := 9, problemSolving := 9, specificExamples := 9,
    communicationQuality := 9, nonsensicalAnswers := 2,
    poorQualityAnswers := 0, meaningfulAnswers := 7 }

/-- The scores the poor-quality regime of `calculateScores` actually
produces, as one closed formula of the aggregate counts: each of
technical/behavioral/communication is its weighted signal score clamped
at 100, minus the flat penalty, floored at 0 — and the overall score is
the mean of the three penalized scores **minus the flat penalty once
more**, floored at 0. -/
def poorRegimeScores (a : Analysis) : Scores :=
  let p : ℚ := (a.poorQualityAnswers : ℚ) * 20
  let t : ℚ := jsMax 0 (jsMin ((a.technicalTerms : ℚ) * 15) 100 - p)
  let b : ℚ := jsMax 0 (jsMin (((a.problemSolving : ℚ) + (a.specificExamples : ℚ)) * 12) 100 - p)
  let c : ℚ := jsMax 0 (jsMin ((a.communicationQuality : ℚ) * 20) 100 - p)
  { overall := jsMax 0 ((t + b + c) / 3 - p), technical := t, behavioral := b, communication := c }

/-- An aggregate analysis in the poor-quality regime: one poor answer,
five technical terms, five behavioral signals, four communication
signals. -/
def c3Analysis : Analysis :=
  { totalWords := 600, averageLength := 60, technicalTerms := 5,
    experienceMentions := 0, problemSolving := 3, specificExamples := 2,
    communicationQuality := 4, nonsensicalAnswers := 0,
    poorQualityAnswers := 1, meaningfulAnswers := 5 }

/-- The single strong answer of the C7 scenario. -/
def c7Answer : Answer :=
  ⟨("I developed a React dashboard at my last job handling 10k daily users, solved a caching bug that cut load time by half, and collaborated daily with a cross-functional team.").toList⟩

/-- An analysis record carrying exactly the seven counter fields the score
calculator reads off `analyzeAnswers [c7Answer]`. -/
def c7Counts : Analysis := ⟨0, 0, 1, 1, 1, 0, 1, 0, 0, 1⟩

end Performance

/-! ## backend/src/utils/pdfParser.ts — resume extraction -/

namespace PdfParser

structure PersonalInfo where
  name : Option Str
  email : Option Str
  phone : Option Str
  location : Option Str
deriving Repr, DecidableEq

structure ExperienceEntry where
  title : Option Str
  company : Option Str
  duration : Option Str
  description : Option Str
deriving Repr, DecidableEq

structure ProjectEntry where
  name : Option Str
  description : Option Str
  technologies : Option (List Str)
deriving Repr, DecidableEq

structure EducationEntry where
  degree : Option Str
  institution : Option Str
  year : Option Str
deriving Repr, DecidableEq

/-- The `ParsedResume` interface (pdfParser.ts lines 4-30).  Top-level
fields are always present; leaf fields are optional. -/
structure ParsedResume where
  personalInfo : PersonalInfo
  skills : List Str
  experience : List ExperienceEntry
  projects : List ProjectEntry
  education : List EducationEntry
  certifications : List Str
  languages : List Str
deriving Repr, DecidableEq

/-- The character class `[\w.-]` of the email pattern. -/
def isEmailChar (c : Char) : Bool := jsIsWordChar c || c = '.' || c = '-'

/-- The tail `[\w.-]+\.\w+` of the email pattern, matched greedily inside
the maximal `[\w.-]` run `run2` that follows the `@`: the regex backtracks
to the last dot of the run that is followed by a word character, then
takes the maximal word-character run after it. -/
def emailTail (run2 : Str) : Option Str :=
  match (List.range run2.length).reverse.find? (fun k =>
      1 ≤ k && run2.getD k ' ' = '.' && jsIsWordChar (run2.getD (k+1) ' ')) with
  | none => none
  | some k => some (run2.take k ++ '.' :: (run2.drop (k+1)).takeWhile jsIsWordChar)

/-- Match `/[\w.-]+@[\w.-]+\.\w+/` anchored at the head of `cs`.  Because
`@` is not in the `[\w.-]` class, the leading `+` is exactly the maximal
run before an `@`. -/
def matchEmailAt (cs : Str) : Option Str :=
  let run1 := cs.takeWhile isEmailChar
  if run1.isEmpty then none
  else
    match cs.drop run1.length with
    | '@' :: rest2 =>
      match emailTail (rest2.takeWhile isEmailChar) with
      | none => none
      | some t => some (run1 ++ '@' :: t)
    | _ => none

/-- First (leftmost) match of the email pattern, as JS `String.match`. -/
def emailScan : Str → Option Str
  | [] => none
  | c :: cs =>
    match matchEmailAt (c :: cs) with
    | some m => some m
    | none => emailScan cs

/-- `emailPattern.test`. -/
def emailTest (s : Str) : Bool := (emailScan s).isSome

/-- The character class `[\d\s\-\(\)]` of the phone pattern. -/
def isPhoneChar (c : Char) : Bool :=
  c.isDigit || jsIsWs c || c = '-' || c = '(' || c = ')'

/-- Match `/[\+]?[\d\s\-\(\)]{10,}/` anchored at the head of `cs`: an
optional `+`, then a maximal run of at least ten phone characters.  (When
the text starts with `+` but the following run is too short, dropping the
optional `+` cannot help, because `+` itself is not a phone character.) -/
def matchPhoneAt (cs : Str) : Option Str :=
  match cs with
  | '+' :: rest =>
    let run := rest.takeWhile isPhoneChar
    if 10 ≤ run.length then some ('+' :: run) else none
  | _ =>
    let run := cs.takeWhile isPhoneChar
    if 10 ≤ run.length then some run else none

/-- First (leftmost) match of the phone pattern. -/
def phoneScan : Str → Option Str
  | [] => none
  | c :: cs =>
    match matchPhoneAt (c :: cs) with
    | some m => some m
    | none => phoneScan cs

/-- `phonePattern.test`. -/
def phoneTest (s : Str) : Bool := (phoneScan s).isSome

/-- `extractPersonalInfo` (pdfParser.ts lines 115-152; the identical
function also appears in the simple variant of the module): first email
match, first phone match with at least ten digits, and the first short
line that is neither email- nor phone-shaped, does not mention
resume/cv, and has at most four space-separated words. -/
def extractPersonalInfo (lines : List Str) : PersonalInfo :=
  { email := lines.findSome? (fun line => emailScan line)
    phone := lines.findSome? (fun line =>
      match phoneScan line with
      | some m => if 10 ≤ (m.filter Char.isDigit).length then some m else none
      | none => none)
    name := lines.find? (fun line =>
      2 < line.length && !emailTest line && !phoneTest line
        && !jsIncludes (jsToLower line) "resume".toList
        && !jsIncludes (jsToLower line) "cv".toList
        && (splitEvery (fun c => c = ' ') line).length ≤ 4)
    location := none }

/-- The skills-section header keywords (pdfParser.ts line 156). -/
def skillKeywords : List Str :=
  ["skills", "technical skills", "technologies", "expertise",
   "competencies"].map String.toList

/-- The fixed technology vocabulary of the backend `extractSkills`
(pdfParser.ts lines 159-168; note the source lists `postgresql` twice). -/
def techSkills : List Str :=
  ["javascript", "typescript", "python", "java", "c++", "c#", "php", "ruby",
   "go", "rust", "react", "angular", "vue", "node.js", "express", "django",
   "flask", "spring", "laravel", "html", "css", "sass", "scss", "tailwind",
   "bootstrap", "mysql", "postgresql", "mongodb", "redis", "elasticsearch",
   "aws", "azure", "google cloud", "docker", "kubernetes", "jenkins", "git",
   "github", "gitlab", "svn", "tensorflow", "pytorch", "scikit-learn",
   "pandas", "numpy", "figma", "sketch", "photoshop", "illustrator", "mern",
   "postgresql", "redux", "axios"].map String.toList

/-- `extractSkillsFromLine` (pdfParser.ts lines 219-234): split on the
separators `, • · - | \n \t`, trim, and keep the tokens whose lowercase
form is in the vocabulary (original casing preserved). -/
def extractSkillsFromLine (line : Str) (tech : List Str) : List Str :=
  let words := ((splitRuns (fun c =>
      c = ',' || c = '•' || c = '·' || c = '-' || c = '|' || c = '\n' || c = '\t') line).map
        jsTrim).filter (fun w => 0 < w.length)
  words.filter (fun w => tech.contains (jsToLower w))

/-- The skills-section pass of `extractSkills` (pdfParser.ts lines
171-199): `inSec` is `inSkillsSection`, `ended` is `skillsSectionEnd`. -/
def skillsSectionScan (tech : List Str) : List Str → Bool → Bool → List Str
  | [], _, _ => []
  | line :: rest, inSec, ended =>
    let lower := jsToLower line
    if skillKeywords.any (fun k => jsIncludes lower k) then
      skillsSectionScan tech rest true ended
    else
      let ended := if inSec && (jsIncludes lower "experience".toList
          || jsIncludes lower "education".toList
          || jsIncludes lower "projects".toList
          || jsIncludes lower "work history".toList
          || jsIncludes lower "employment".toList) then true else ended
      if inSec && !ended then
        extractSkillsFromLine line tech ++ skillsSectionScan tech rest inSec ended
      else
        skillsSectionScan tech rest inSec ended

/-- JS `text.match(/[•\-*]\s*[^•\n]*/g)`: every bullet marker together
with the whitespace after it and the text up to the next bullet or
newline; the scan resumes after each match. -/
def bulletScanGo (fuel : ℕ) (cs : Str) : List Str :=
  match fuel, cs with
  | _, [] => []
  | 0, _ => []
  | fuel + 1, c :: cs =>
    if c = '•' || c = '-' || c = '*' then
      let ws := cs.takeWhile jsIsWs
      let rest2 := cs.drop ws.length
      let body := rest2.takeWhile (fun d => !(d = '•') && !(d = '\n'))
      (c :: (ws ++ body)) :: bulletScanGo fuel (rest2.drop body.length)
    else bulletScanGo fuel cs

/-- JS global bullet match over a whole text.  Every step of
`bulletScanGo` consumes at least one character, so fuel equal to the text
length is never exhausted and the fuel parameter is unobservable. -/
def bulletScan (text : Str) : List Str := bulletScanGo text.length text

/-- `extractSkills` (pdfParser.ts lines 154-217): skills-section tokens,
then a whole-document substring scan over the vocabulary (each vocabulary
word added once, in lowercase, unless already present case-insensitively),
then tokens of every bullet point, and finally JS `Set` deduplication —
which is exact (case-sensitive). -/
def extractSkills (text : Str) (lines : List Str) : List Str :=
  let sectionSkills := skillsSectionScan techSkills lines false false
  let lowerText := jsToLower text
  let afterText := techSkills.foldl (fun acc skill =>
    if jsIncludes lowerText skill && !(acc.any (fun s => jsToLower s = skill)) then
      acc ++ [skill]
    else acc) sectionSkills
  let afterBullets := afterText
    ++ ((bulletScan text).map (fun b => extractSkillsFromLine b techSkills)).flatten
  jsSetDedup afterBullets

/-- The text of the C5 counterexample: a skills section containing the
same vocabulary skill in two casings (the second behind a bullet). -/
def c5Text : Str := "Skills\nPYTHON\n• Python".toList

/-- `/^[A-Z][a-z]+(\s+[A-Z][a-z]+)*$/`: consume one title-case word
(an upper-case letter followed by one or more lower-case letters),
returning the rest. -/
def titleCaseWordRest : Str → Option Str
  | [] => none
  | c :: rest =>
    if c.isUpper then
      let lows := rest.takeWhile (fun d => d.isLower)
      if lows.isEmpty then none else some (rest.drop lows.length)
    else none

/-- After the first title-case word: repeatedly consume `\s+` and another
title-case word until the end.  Each iteration consumes at least two
characters, so fuel equal to the string length is never exhausted. -/
def titleCaseLoop : ℕ → Str → Bool
  | _, [] => true
  | 0, _ :: _ => false
  | fuel + 1, c :: cs =>
    let ws := (c :: cs).takeWhile jsIsWs
    if ws.isEmpty then false
    else
      match titleCaseWordRest ((c :: cs).drop ws.length) with
      | some rest => titleCaseLoop fuel rest
      | none => false

/-- Full-string test of `/^[A-Z][a-z]+(\s+[A-Z][a-z]+)*$/`. -/
def isTitleCase (s : Str) : Bool :=
  match titleCaseWordRest s with
  | some rest => titleCaseLoop s.length rest
  | none => false

/-- Full-string test of `/^[A-Z\s]+$/`. -/
def isAllCapsWs (s : Str) : Bool :=
  !s.isEmpty && s.all (fun c => c.isUpper || jsIsWs c)

/-- `/\d{4}/.test`: four consecutive digits occur somewhere. -/
def hasFourDigits : Str → Bool
  | a :: b :: c :: d :: rest =>
    (a.isDigit && b.isDigit && c.isDigit && d.isDigit) || hasFourDigits (b :: c :: d :: rest)
  | _ => false

/-- JS `line.split(/\d{4}/)[0]`: the prefix before the first run of four
consecutive digits (the whole string when there is none). -/
def takeBeforeFourDigits : Str → Str
  | a :: b :: c :: d :: rest =>
    if a.isDigit && b.isDigit && c.isDigit && d.isDigit then []
    else a :: takeBeforeFourDigits (b :: c :: d :: rest)
  | cs => cs

/-- JS `replace(/\s+/g, ' ')`: collapse each whitespace run to a single
space; `inRun` tracks whether the previous character was whitespace. -/
def collapseWsGo : Str → Bool → Str
  | [], _ => []
  | c :: cs, inRun =>
    if jsIsWs c then
      if inRun then collapseWsGo cs true else ' ' :: collapseWsGo cs true
    else c :: collapseWsGo cs false

def collapseWs (s : Str) : Str := collapseWsGo s false

/-- JS `replace(/[^A-Za-z\s]/g, '')`. -/
def keepLettersWs (s : Str) : Str := s.filter (fun c => c.isAlpha || jsIsWs c)

/-- The `cleanJobTitle` computation shared by `isJobTitle` and
`extractExperience` (pdfParser.ts lines 307-308 and 375-377). -/
def cleanJobTitleOf (line : Str) : Str :=
  jsTrim (keepLettersWs (collapseWs (jsTrim (takeBeforeFourDigits line))))

/-- `/corp|inc|ltd|pvt|company|technologies|solutions|systems/i.test`. -/
def hasCompanyKeyword (line : Str) : Bool :=
  (["corp", "inc", "ltd", "pvt", "company", "technologies", "solutions",
    "systems"].map String.toList).any (fun w => jsIncludes (jsToLower line) w)

/-- `/developer|engineer|analyst|manager|lead|architect|consultant|specialist|designer|programmer/i.test`. -/
def hasJobKeyword (line : Str) : Bool :=
  (["developer", "engineer", "analyst", "manager", "lead", "architect",
    "consultant", "specialist", "designer", "programmer"].map String.toList).any
    (fun w => jsIncludes (jsToLower line) w)

/-- A line starting with one of the bullet markers `•`, `-`, `*`. -/
def isBulletLine (line : Str) : Bool :=
  jsStartsWith line "•".toList || jsStartsWith line "-".toList
    || jsStartsWith line "*".toList

/-- `isCompanyName` (pdfParser.ts lines 342-358). -/
def isCompanyName (line : Str) (nextLine : Option Str) : Bool :=
  if line.length < 3 then false
  else
    let hasLocation :=
      match nextLine with
      | some nl => jsIncludes nl ",".toList || jsIncludes nl "India".toList
          || jsIncludes nl "Mumbai".toList
      | none => false
    let titleCase := isTitleCase line
    let allCaps := isAllCapsWs line
    let companyKeywords := hasCompanyKeyword line
    let reasonableLength := 5 < line.length && line.length < 100
    let notJobTitle := !hasJobKeyword line
    let notBulletPoint := !isBulletLine line
    (titleCase || allCaps || companyKeywords) && reasonableLength
      && notJobTitle && notBulletPoint && (hasLocation || 10 < line.length)

/-- `isJobTitle` (pdfParser.ts lines 360-381). -/
def isJobTitle (line : Str) (nextLine : Option Str) : Bool :=
  if line.length < 5 then false
  else
    let hasDates :=
      match nextLine with
      | some nl => hasFourDigits nl
      | none => false
    let hasDatesInLine := hasFourDigits line
    let shortPhrase := line.length < 50
      && (splitEvery (fun c => c = ' ') line).length ≤ 5
    let jobKeywords := hasJobKeyword line
    let notLocation := !jsIncludes line "India".toList
      && !jsIncludes line "Mumbai".toList
      && !jsIncludes line "New York".toList
      && !jsIncludes line "California".toList
    let notCompany := !isCompanyName line nextLine
    let notBulletPoint := !isBulletLine line
    let startsWithJobTitle := isTitleCase (cleanJobTitleOf line) && jobKeywords
    (hasDates || hasDatesInLine || shortPhrase || startsWithJobTitle)
      && jobKeywords && notLocation && notCompany && notBulletPoint

/-- First match of `/\d{4}.*\d{4}|\d{4}.*Present/` anchored at the head:
after a leading four-digit run, `.*` cannot cross a newline, and the
greedy `.*` makes the match extend to the *last* four-digit run
(alternative 1) or, failing that, the last occurrence of `Present`
(alternative 2) in the same line segment. -/
def matchDurationAt (cs : Str) : Option Str :=
  match cs with
  | a :: b :: c :: d :: rest =>
    if a.isDigit && b.isDigit && c.isDigit && d.isDigit then
      let seg := rest.takeWhile (fun x => !(x = '\n'))
      match (List.range seg.length).reverse.find? (fun k =>
          ((seg.drop k).take 4).length = 4 && ((seg.drop k).take 4).all Char.isDigit) with
      | some k => some (a :: b :: c :: d :: seg.take (k + 4))
      | none =>
        match (List.range seg.length).reverse.find? (fun k =>
            charsPre "Present".toList (seg.drop k)) with
        | some k => some (a :: b :: c :: d :: seg.take (k + 7))
        | none => none
    else none
  | _ => none

/-- First (leftmost) match of the duration pattern in a line. -/
def matchDuration : Str → Option Str
  | [] => none
  | c :: cs =>
    match matchDurationAt (c :: cs) with
    | some m => some m
    | none => matchDuration cs

/-- JS `array.join(' ')`. -/
def joinSpace (parts : List Str) : Str := (parts.intersperse " ".toList).flatten

/-- JS `line.replace(/^[•\-*]\s*/, '')`: strip one leading bullet marker
and the whitespace after it. -/
def stripBullet (line : Str) : Str :=
  match line with
  | [] => []
  | c :: rest =>
    if c = '•' || c = '-' || c = '*' then rest.dropWhile jsIsWs else line

/-- The prefix of `s` before the first character satisfying `p` (JS
`split(sep)[0]`). -/
def takeBefore (p : Char → Bool) (s : Str) : Str :=
  s.takeWhile (fun c => !p c)

def experienceKeywords : List Str :=
  ["experience", "work history", "employment",
   "professional experience"].map String.toList

def emptyExperienceEntry : ExperienceEntry := ⟨none, none, none, none⟩

/-- JS `Object.keys(currentJob).length > 0` is false exactly here. -/
def expIsEmpty (e : ExperienceEntry) : Bool :=
  e.title.isNone && e.company.isNone && e.duration.isNone && e.description.isNone

/-- The string `undefined` produced by JS template interpolation of a
missing field. -/
def undefStr : Str := "undefined".toList

/-- The deduplication key `` `${title}-${company}` `` of an experience
entry (pdfParser.ts line 259 etc.). -/
def jobKeyOf (e : ExperienceEntry) : Str :=
  e.title.getD undefStr ++ '-' :: e.company.getD undefStr

/-- The loop state of `extractExperience`.  In the source, `currentJob`
is pushed into the array **by reference** and may be mutated afterwards
(the job-title branch overwrites the title of an already-pushed object,
and every push pushes the same object until it is replaced in the
company branch).  All array slots filled during the lifetime of one
`currentJob` object therefore hold the same final value; this is modelled
by counting the pushes of the current object (`curPushes`) and emitting
that many copies of its final value when the object is replaced or the
loop ends. -/
structure ExpState where
  emitted : List ExperienceEntry
  cur : ExperienceEntry
  curPushes : ℕ
  descParts : List Str
  processed : List Str

/-- Emit the pending copies of the current `currentJob` object. -/
def emitGen (st : ExpState) : List ExperienceEntry :=
  st.emitted ++ List.replicate st.curPushes st.cur

/-- The shared finalize step (`currentJob.description = join; if key not
yet processed: push and record the key`). -/
def finalizeCur (st : ExpState) : ExpState :=
  if expIsEmpty st.cur then st
  else
    let cur := { st.cur with description := some (joinSpace st.descParts) }
    let key := jobKeyOf cur
    if st.processed.contains key then { st with cur := cur }
    else { st with cur := cur, curPushes := st.curPushes + 1,
                   processed := st.processed ++ [key] }

/-- The loop of `extractExperience` (pdfParser.ts lines 236-339).  The
final non-loop block (lines 331-337) re-sets the description to the same
value and cannot push again, because every in-loop finalize records the
job key first; on the break path it is therefore a no-op, and on normal
exit it is `finalizeCur` itself. -/
def expLoop : List Str → Bool → ExpState → List ExperienceEntry
  | [], _, st => emitGen (finalizeCur st)
  | line :: rest, inSec, st =>
    let lower := jsToLower line
    if experienceKeywords.any (fun k => jsIncludes lower k) then
      expLoop rest true st
    else if inSec then
      if jsIncludes lower "education".toList || jsIncludes lower "projects".toList
          || jsIncludes lower "skills".toList then
        emitGen (finalizeCur st)
      else if isCompanyName line rest.head? then
        let st := finalizeCur st
        let companyName :=
          jsTrim (takeBefore (fun c => c = ',') (takeBefore (fun c => c = '\t') line))
        expLoop rest true
          { emitted := emitGen st
            cur := { emptyExperienceEntry with company := some companyName }
            curPushes := 0
            descParts := []
            processed := st.processed }
      else if isJobTitle line rest.head? then
        let st :=
          if st.cur.title.isSome && st.cur.company.isSome then
            { finalizeCur st with descParts := [] }
          else st
        let parts := splitEvery (fun c => c = '\t') line
        let st :=
          if 2 ≤ parts.length then
            { st with cur := { st.cur with
                title := some (jsTrim (parts.getD 0 []))
                duration := some (jsTrim (parts.getD 1 [])) } }
          else
            let st := { st with cur := { st.cur with
                title := some (cleanJobTitleOf line) } }
            match matchDuration line with
            | some d => { st with cur := { st.cur with duration := some (jsTrim d) } }
            | none => st
        expLoop rest true st
      else if isBulletLine line then
        expLoop rest true { st with descParts := st.descParts ++ [stripBullet line] }
      else if 20 < line.length && st.cur.company.isSome
          && !isCompanyName line rest.head? && !isJobTitle line rest.head? then
        expLoop rest true { st with descParts := st.descParts ++ [line] }
      else
        expLoop rest true st
    else expLoop rest false st

/-- `extractExperience` (pdfParser.ts lines 236-340), the strict variant. -/
def extractExperience (lines : List Str) : List ExperienceEntry :=
  expLoop lines false ⟨[], emptyExperienceEntry, 0, [], []⟩

def projectKeywords : List Str :=
  ["projects", "personal projects", "key projects",
   "notable projects"].map String.toList

/-- `isProjectName` (pdfParser.ts lines 447-456); the `hasYear` binding of
the source is computed but unused. -/
def isProjectName (line : Str) : Bool :=
  if line.length < 5 then false
  else jsIncludes line ":".toList && (line.length < 100 && 10 < line.length)

def emptyProjectEntry : ProjectEntry := ⟨none, none, none⟩

def projIsEmpty (p : ProjectEntry) : Bool :=
  p.name.isNone && p.description.isNone && p.technologies.isNone

/-- Loop state of `extractProjects`: collected entries, the current
project, its accumulated description lines, and the processed-name set. -/
structure ProjState where
  projects : List ProjectEntry
  cur : ProjectEntry
  descParts : List Str
  processed : List (Option Str)

/-- Finalize the current project (`description = join`; push if its name
was not processed yet). -/
def finalizeProj (st : ProjState) : ProjState :=
  if projIsEmpty st.cur then st
  else
    let cur := { st.cur with description := some (joinSpace st.descParts) }
    if st.processed.contains cur.name then { st with cur := cur }
    else { st with projects := st.projects ++ [cur], cur := cur,
                   processed := st.processed ++ [cur.name] }

/-- The loop of `extractProjects` (pdfParser.ts lines 383-445). -/
def projLoop : List Str → Bool → ProjState → List ProjectEntry
  | [], _, st => (finalizeProj st).projects
  | line :: rest, inSec, st =>
    let lower := jsToLower line
    if projectKeywords.any (fun k => jsIncludes lower k) then
      projLoop rest true st
    else if inSec then
      if jsIncludes lower "education".toList || jsIncludes lower "experience".toList
          || jsIncludes lower "skills".toList then
        (finalizeProj st).projects
      else if isProjectName line then
        let st := finalizeProj st
        projLoop rest true
          { st with cur := { emptyProjectEntry with name := some line }, descParts := [] }
      else if isBulletLine line then
        projLoop rest true { st with descParts := st.descParts ++ [stripBullet line] }
      else if 10 < line.length && st.cur.name.isSome && !jsIncludes line ":".toList then
        projLoop rest true { st with descParts := st.descParts ++ [line] }
      else
        projLoop rest true st
    else projLoop rest false st

/-- `extractProjects` (pdfParser.ts lines 383-445). -/
def extractProjects (lines : List Str) : List ProjectEntry :=
  projLoop lines false ⟨[], emptyProjectEntry, [], []⟩

def educationKeywords : List Str :=
  ["education", "academic background", "qualifications"].map String.toList

def emptyEducationEntry : EducationEntry := ⟨none, none, none⟩

def eduIsEmpty (e : EducationEntry) : Bool :=
  e.degree.isNone && e.institution.isNone && e.year.isNone

/-- The institution test of `extractEducation` (case-sensitive
`includes`). -/
def isInstitutionLine (line : Str) : Bool :=
  (["College", "University", "Institute", "School", "Academy",
    "Foundation"].map String.toList).any (fun w => jsIncludes line w)

/-- The degree test of `extractEducation` (case-sensitive `includes`,
plus a four-digit year). -/
def isDegreeLine (line : Str) : Bool :=
  (["B.Tech", "B.E", "M.Tech", "M.E", "HSC", "SSC", "Bachelor", "Master",
    "Diploma", "GPA", "%"].map String.toList).any (fun w => jsIncludes line w)
    || hasFourDigits line

/-- The year/location test of `extractEducation`. -/
def isYearLine (line : Str) : Bool :=
  hasFourDigits line || jsIncludes line "Mumbai".toList
    || jsIncludes line "India".toList || jsIncludes line "GPA".toList
    || jsIncludes line "%".toList

/-- The loop of `extractEducation` (pdfParser.ts lines 458-530).  On the
break path the source pushes the current entry and resets it before
breaking, so the post-loop push never fires there. -/
def eduLoop : List Str → Bool → List EducationEntry → EducationEntry → List EducationEntry
  | [], _, acc, cur => if eduIsEmpty cur then acc else acc ++ [cur]
  | line :: rest, inSec, acc, cur =>
    let lower := jsToLower line
    if educationKeywords.any (fun k => jsIncludes lower k) then
      eduLoop rest true acc cur
    else if inSec then
      if jsIncludes lower "experience".toList || jsIncludes lower "projects".toList
          || jsIncludes lower "skills".toList
          || jsIncludes lower "certifications".toList then
        if eduIsEmpty cur then acc else acc ++ [cur]
      else if 5 < line.length then
        if isInstitutionLine line then
          let acc := if eduIsEmpty cur then acc else acc ++ [cur]
          eduLoop rest true acc { emptyEducationEntry with institution := some line }
        else if isDegreeLine line then
          match cur.degree with
          | some _ =>
            eduLoop rest true (acc ++ [cur]) { emptyEducationEntry with degree := some line }
          | none => eduLoop rest true acc { cur with degree := some line }
        else if isYearLine line then
          match cur.year with
          | some y => eduLoop rest true acc { cur with year := some (y ++ ' ' :: line) }
          | none => eduLoop rest true acc { cur with year := some line }
        else if cur.institution.isSome && cur.degree.isNone then
          eduLoop rest true acc { cur with degree := some line }
        else eduLoop rest true acc cur
      else eduLoop rest true acc cur
    else eduLoop rest false acc cur

/-- `extractEducation` (pdfParser.ts lines 458-530). -/
def extractEducation (lines : List Str) : List EducationEntry :=
  eduLoop lines false [] emptyEducationEntry

def certKeywords : List Str :=
  ["certifications", "certificates", "certified", "achievements"].map String.toList

/-- The provider keywords accepted for non-bullet certification lines
(pdfParser.ts lines 562-565, case-sensitive `includes`). -/
def certProviderKeywords : List Str :=
  ["Certified", "Certificate", "Google", "AWS", "Microsoft", "Coursera",
   "Udemy", "Coding", "Full Stack", "UI/UX", "Web Development"].map String.toList

/-- The loop of `extractCertifications` (pdfParser.ts lines 532-572). -/
def certLoop : List Str → Bool → List Str
  | [], _ => []
  | line :: rest, inSec =>
    let lower := jsToLower line
    if certKeywords.any (fun k => jsIncludes lower k) && !isBulletLine line then
      certLoop rest true
    else if inSec then
      if jsIncludes lower "education".toList || jsIncludes lower "experience".toList
          || jsIncludes lower "skills".toList || jsIncludes lower "projects".toList
          || jsIncludes lower "languages".toList then
        []
      else if 5 < line.length then
        if isBulletLine line then
          let clean := jsTrim (stripBullet line)
          if 0 < clean.length then clean :: certLoop rest true
          else certLoop rest true
        else if certProviderKeywords.any (fun w => jsIncludes line w) then
          line :: certLoop rest true
        else certLoop rest true
      else certLoop rest true
    else certLoop rest false

/-- `extractCertifications` (pdfParser.ts lines 532-572). -/
def extractCertifications (lines : List Str) : List Str :=
  certLoop lines false

def languageKeywords : List Str :=
  ["languages", "language skills"].map String.toList

/-- The fixed language vocabulary (pdfParser.ts line 578). -/
def commonLanguages : List Str :=
  ["english", "spanish", "french", "german", "chinese", "japanese",
   "korean", "hindi", "arabic"].map String.toList

/-- The loop of `extractLanguages` (pdfParser.ts lines 574-604): inside
the section, every vocabulary language contained in the lowercased line
is collected, in vocabulary order. -/
def langLoop : List Str → Bool → List Str
  | [], _ => []
  | line :: rest, inSec =>
    let lower := jsToLower line
    if languageKeywords.any (fun k => jsIncludes lower k) then
      langLoop rest true
    else if inSec then
      if jsIncludes lower "education".toList || jsIncludes lower "experience".toList
          || jsIncludes lower "skills".toList then
        []
      else
        commonLanguages.filter (fun lang => jsIncludes lower lang) ++ langLoop rest true
    else langLoop rest false

/-- `extractLanguages` (pdfParser.ts lines 574-604). -/
def extractLanguages (lines : List Str) : List Str :=
  jsSetDedup (langLoop lines false)

/-- `parseResumeContent` (pdfParser.ts lines 60-113).  The source throws
`'Empty text provided for parsing'` when `!text || text.trim().length
=== 0` (equivalently: the trimmed text is empty) and otherwise assembles
the record field by field inside a try/catch that would return the
partially filled record if an extractor threw; none of the extractors
contains a `throw`, and their embeddings are total functions, so the
catch path is unreachable and every success returns the fully assembled
record. -/
def parseResumeContent (text : Str) : Except String ParsedResume :=
  if (jsTrim text).length = 0 then
    Except.error "Empty text provided for parsing"
  else
    let lines := linesOf text
    Except.ok
      { personalInfo := extractPersonalInfo lines
        skills := extractSkills text lines
        experience := extractExperience lines
        projects := extractProjects lines
        education := extractEducation lines
        certifications := extractCertifications lines
        languages := extractLanguages lines }

end PdfParser

/-! ## The simple variant of the resume parser module (second copy of
`pdfParser.ts` shipped in the repository, with the lighter experience /
projects / education / certifications heuristics).  `extractPersonalInfo`
and `extractLanguages` are textually identical in both copies and are
reused from the `PdfParser` namespace. -/

namespace SimpleParser

open PdfParser (ParsedResume ExperienceEntry ProjectEntry EducationEntry
  emptyExperienceEntry emptyProjectEntry expIsEmpty projIsEmpty
  experienceKeywords projectKeywords educationKeywords skillsSectionScan)

/-- The technology vocabulary of the simple variant (48 entries, ending
at `illustrator`). -/
def techSkills : List Str :=
  ["javascript", "typescript", "python", "java", "c++", "c#", "php", "ruby",
   "go", "rust", "react", "angular", "vue", "node.js", "express", "django",
   "flask", "spring", "laravel", "html", "css", "sass", "scss", "tailwind",
   "bootstrap", "mysql", "postgresql", "mongodb", "redis", "elasticsearch",
   "aws", "azure", "google cloud", "docker", "kubernetes", "jenkins", "git",
   "github", "gitlab", "svn", "tensorflow", "pytorch", "scikit-learn",
   "pandas", "numpy", "figma", "sketch", "photoshop",
   "illustrator"].map String.toList

/-- `extractSkills` of the simple variant: the same section scan and
whole-text vocabulary scan as the backend copy, but no bullet-point pass. -/
def extractSkills (text : Str) (lines : List Str) : List Str :=
  let sectionSkills := skillsSectionScan techSkills lines false false
  let lowerText := jsToLower text
  let afterText := techSkills.foldl (fun acc skill =>
    if jsIncludes lowerText skill && !(acc.any (fun s => jsToLower s = skill)) then
      acc ++ [skill]
    else acc) sectionSkills
  jsSetDedup afterText

/-- `/\s+at\s+/` anchored at the head: whitespace, the literal `at`,
whitespace; returns the rest after the separator. -/
def matchSepAt (cs : Str) : Option Str :=
  let ws := cs.takeWhile jsIsWs
  if ws.isEmpty then none
  else
    match cs.drop ws.length with
    | 'a' :: 't' :: rest2 =>
      let ws2 := rest2.takeWhile jsIsWs
      if ws2.isEmpty then none else some (rest2.drop ws2.length)
    | _ => none

/-- `/\s+-\s+/` anchored at the head. -/
def matchSepDash (cs : Str) : Option Str :=
  let ws := cs.takeWhile jsIsWs
  if ws.isEmpty then none
  else
    match cs.drop ws.length with
    | '-' :: rest2 =>
      let ws2 := rest2.takeWhile jsIsWs
      if ws2.isEmpty then none else some (rest2.drop ws2.length)
    | _ => none

/-- JS `line.split(/\s+at\s+|\s+-\s+|\|/)`: scan left to right, trying
the three alternatives in order at each position.  Every step consumes at
least one character, so fuel equal to the string length never runs out. -/
def splitJobGo (fuel : ℕ) (cs : Str) (acc : Str) : List Str :=
  match fuel, cs with
  | _, [] => [acc.reverse]
  | 0, _ :: _ => [acc.reverse]
  | fuel + 1, c :: rest =>
    match matchSepAt (c :: rest) with
    | some r => acc.reverse :: splitJobGo fuel r []
    | none =>
      match matchSepDash (c :: rest) with
      | some r => acc.reverse :: splitJobGo fuel r []
      | none =>
        if c = '|' then acc.reverse :: splitJobGo fuel rest []
        else splitJobGo fuel rest (c :: acc)

def splitJobLine (s : Str) : List Str := splitJobGo s.length s []

/-- The loop of the simple `extractExperience` (lines 229-275 of the
variant): a lowercased line containing ` at `, ` - ` or `|` starts a new
entry whose title/company come from splitting the original line; longer
lines become the description of the current entry (first one only). -/
def expLoopS : List Str → Bool → List ExperienceEntry → ExperienceEntry → List ExperienceEntry
  | [], _, acc, cur => if expIsEmpty cur then acc else acc ++ [cur]
  | line :: rest, inSec, acc, cur =>
    let lower := jsToLower line
    if experienceKeywords.any (fun k => jsIncludes lower k) then
      expLoopS rest true acc cur
    else if inSec then
      if jsIncludes lower "education".toList || jsIncludes lower "projects".toList
          || jsIncludes lower "skills".toList then
        if expIsEmpty cur then acc else acc ++ [cur]
      else if jsIncludes lower " at ".toList || jsIncludes lower " - ".toList
          || jsIncludes lower "|".toList then
        let acc := if expIsEmpty cur then acc else acc ++ [cur]
        let parts := splitJobLine line
        let cur :=
          if 2 ≤ parts.length then
            { emptyExperienceEntry with
                title := some (jsTrim (parts.getD 0 []))
                company := some (jsTrim (parts.getD 1 [])) }
          else emptyExperienceEntry
        expLoopS rest true acc cur
      else if 10 < line.length && cur.description.isNone then
        expLoopS rest true acc { cur with description := some line }
      else expLoopS rest true acc cur
    else expLoopS rest false acc cur

/-- The simple `extractExperience`. -/
def extractExperience (lines : List Str) : List ExperienceEntry :=
  expLoopS lines false [] emptyExperienceEntry

/-- The loop of the simple `extractProjects` (lines 277-316 of the
variant): any short line starts a new project while no name is set;
longer lines become the (single) description. -/
def projLoopS : List Str → Bool → List ProjectEntry → ProjectEntry → List ProjectEntry
  | [], _, acc, cur => if projIsEmpty cur then acc else acc ++ [cur]
  | line :: rest, inSec, acc, cur =>
    let lower := jsToLower line
    if projectKeywords.any (fun k => jsIncludes lower k) then
      projLoopS rest true acc cur
    else if inSec then
      if jsIncludes lower "education".toList || jsIncludes lower "experience".toList
          || jsIncludes lower "skills".toList then
        if projIsEmpty cur then acc else acc ++ [cur]
      else if 0 < line.length && line.length < 50 && cur.name.isNone then
        let acc := if projIsEmpty cur then acc else acc ++ [cur]
        projLoopS rest true acc { emptyProjectEntry with name := some line }
      else if 10 < line.length && cur.name.isSome && cur.description.isNone then
        projLoopS rest true acc { cur with description := some line }
      else projLoopS rest true acc cur
    else projLoopS rest false acc cur

/-- The simple `extractProjects`. -/
def extractProjects (lines : List Str) : List ProjectEntry :=
  projLoopS lines false [] emptyProjectEntry

/-- The loop of the simple `extractEducation` (lines 318-355 of the
variant): each sufficiently long line becomes its own one-field entry —
a degree when the lowercased line mentions a degree keyword, an
institution when the *original* line contains one of the lowercase
institution words (a case-sensitive test in the source). -/
def eduLoopS : List Str → Bool → List EducationEntry
  | [], _ => []
  | line :: rest, inSec =>
    let lower := jsToLower line
    if educationKeywords.any (fun k => jsIncludes lower k) then
      eduLoopS rest true
    else if inSec then
      if jsIncludes lower "experience".toList || jsIncludes lower "projects".toList
          || jsIncludes lower "skills".toList then
        []
      else if 5 < line.length then
        if (["bachelor", "master", "phd", "b.s", "m.s", "b.a",
             "m.a"].map String.toList).any (fun w => jsIncludes lower w) then
          ⟨some line, none, none⟩ :: eduLoopS rest true
        else if (["university", "college",
             "institute"].map String.toList).any (fun w => jsIncludes line w) then
          ⟨none, some line, none⟩ :: eduLoopS rest true
        else eduLoopS rest true
      else eduLoopS rest true
    else eduLoopS rest false

/-- The simple `extractEducation`. -/
def extractEducation (lines : List Str) : List EducationEntry :=
  eduLoopS lines false

def certKeywordsS : List Str :=
  ["certifications", "certificates", "certified"].map String.toList

/-- The loop of the simple `extractCertifications` (lines 357-383 of the
variant): every line longer than five characters inside the section is a
certification. -/
def certLoopS : List Str → Bool → List Str
  | [], _ => []
  | line :: rest, inSec =>
    let lower := jsToLower line
    if certKeywordsS.any (fun k => jsIncludes lower k) then
      certLoopS rest true
    else if inSec then
      if jsIncludes lower "education".toList || jsIncludes lower "experience".toList
          || jsIncludes lower "skills".toList then
        []
      else if 5 < line.length then line :: certLoopS rest true
      else certLoopS rest true
    else certLoopS rest false

/-- The simple `extractCertifications`. -/
def extractCertifications (lines : List Str) : List Str :=
  certLoopS lines false

/-- `parseResumeContent` of the simple variant (lines 60-113): identical
empty-input check and try/catch structure, assembling the record from the
variant's extractors. -/
def parseResumeContent (text : Str) : Except String ParsedResume :=
  if (jsTrim text).length = 0 then
    Except.error "Empty text provided for parsing"
  else
    let lines := linesOf text
    Except.ok
      { personalInfo := PdfParser.extractPersonalInfo lines
        skills := extractSkills text lines
        experience := extractExperience lines
        projects := extractProjects lines
        education := extractEducation lines
        certifications := extractCertifications lines
        languages := PdfParser.extractLanguages lines }

/-- The seven-line scenario input of C6, joined by newlines. -/
def c6Text : Str :=
  ("John Doe\njohn@x.com\n+1 555-123-4567\nSkills\nPython, React, AWS\nExperience\nSoftware Engineer at Acme - Built internal tools").toList

/-- The record returned for the scenario input. -/
def c6Resume : PdfParser.ParsedResume :=
  (parseResumeContent c6Text).toOption.getD
    ⟨⟨none, none, none, none⟩, [], [], [], [], [], []⟩

end SimpleParser

/-! ## backend/src/routes/questions.ts — smart question generator -/

namespace Questions

structure Question where
  id : ℕ
  text : Str
  category : Str
deriving Repr, DecidableEq

structure JobDetails where
  title : Str
  company : Str
  description : Str
  requirements : Str
deriving Repr, DecidableEq

/-- JS `v || 'default'` on a possibly-undefined string field: the default
is used when the field is absent or empty (falsy). -/
def jsOrStr (v : Option Str) (d : Str) : Str :=
  match v with
  | some s => if s.isEmpty then d else s
  | none => d

/-- JS `array.join(', ')`. -/
def joinComma (l : List Str) : Str := (l.intersperse ", ".toList).flatten

/-- JS `array.join(' and ')`. -/
def joinAnd (l : List Str) : Str := (l.intersperse " and ".toList).flatten

/-- The five base questions of `generateSmartQuestions` (questions.ts
lines 141-173), each with a resume-aware text and a resume-agnostic
fallback. -/
def baseQuestions (jd : JobDetails) (rc : Option PdfParser.ParsedResume) :
    List Question :=
  [ { id := 1
      text :=
        match rc with
        | some r =>
          if 0 < r.skills.length then
            "I see you have experience with ".toList ++ joinComma (r.skills.take 3)
              ++ ". Can you elaborate on how you".toList
              ++ '\'' :: "ve used these skills in your previous work?".toList
          else
            "Can you tell me about your experience with the technologies and skills required for the ".toList
              ++ jd.title ++ " position?".toList
        | none =>
          "Can you tell me about your experience with the technologies and skills required for the ".toList
            ++ jd.title ++ " position?".toList
      category := "Technical".toList }
  , { id := 2
      text :=
        match rc with
        | some r =>
          if 0 < r.projects.length then
            "Tell me about ".toList
              ++ jsOrStr (r.projects.getD 0 PdfParser.emptyProjectEntry).name
                   "one of your projects".toList
              ++ ". What challenges did you face and how did you overcome them?".toList
          else
            "What challenges have you faced in your previous projects and how did you overcome them?".toList
        | none =>
          "What challenges have you faced in your previous projects and how did you overcome them?".toList
      category := "Behavioral".toList }
  , { id := 3
      text := "Why are you interested in joining ".toList ++ jd.company
        ++ " and what excites you about this ".toList ++ jd.title
        ++ " role?".toList
      category := "Motivation".toList }
  , { id := 4
      text :=
        match rc with
        | some r =>
          if 0 < r.experience.length then
            "In your role as ".toList
              ++ jsOrStr (r.experience.getD 0 PdfParser.emptyExperienceEntry).title
                   "your previous position".toList
              ++ ", describe a situation where you had to work with a difficult team member or resolve a conflict.".toList
          else
            "Describe a situation where you had to work with a difficult team member or resolve a conflict.".toList
        | none =>
          "Describe a situation where you had to work with a difficult team member or resolve a conflict.".toList
      category := "Behavioral".toList }
  , { id := 5
      text := "What are your career goals for the next 3-5 years and how does this position align with them?".toList
      category := "Career".toList } ]

/-- The six languages probed by the software-engineer skill question
(questions.ts lines 202, 205). -/
def coreTechList : List Str :=
  ["javascript", "python", "java", "react", "node.js",
   "typescript"].map String.toList

/-- `getRoleSpecificQuestions` (questions.ts lines 181-278). -/
def getRoleSpecificQuestions (title : Str) (requirements : Str)
    (rc : Option PdfParser.ParsedResume) : List Question :=
  let titleLower := jsToLower title
  let softwareQs : List Question :=
    if jsIncludes titleLower "software".toList || jsIncludes titleLower "developer".toList
        || jsIncludes titleLower "programmer".toList then
      [ { id := 6
          text :=
            match rc with
            | some r =>
              if 0 < r.projects.length then
                "I noticed you worked on ".toList
                  ++ jsOrStr (r.projects.getD 0 PdfParser.emptyProjectEntry).name
                       "a software project".toList
                  ++ ". Can you walk me through the technical challenges you faced and how you solved them?".toList
              else
                "Can you walk me through a complex coding problem you solved recently?".toList
            | none =>
              "Can you walk me through a complex coding problem you solved recently?".toList
          category := "Technical".toList }
      , { id := 7
          text :=
            match rc with
            | some r =>
              if r.skills.any (fun skill => coreTechList.contains (jsToLower skill)) then
                "You mention experience with ".toList
                  ++ joinAnd ((r.skills.filter (fun skill =>
                       coreTechList.contains (jsToLower skill))).take 2)
                  ++ ". How do you stay updated with these technologies and what recent changes have excited you?".toList
              else
                "How do you stay updated with the latest technologies and programming languages?".toList
            | none =>
              "How do you stay updated with the latest technologies and programming languages?".toList
          category := "Technical".toList } ]
    else []
  let isDataProject (p : PdfParser.ProjectEntry) : Bool :=
    match p.description with
    | some d => jsIncludes (jsToLower d) "data".toList
        || jsIncludes (jsToLower d) "analysis".toList
    | none => false
  let dataQs : List Question :=
    if jsIncludes titleLower "data".toList || jsIncludes titleLower "analyst".toList
        || jsIncludes titleLower "scientist".toList then
      [ { id := 8
          text :=
            match rc with
            | some r =>
              if r.projects.any isDataProject then
                "Tell me about ".toList
                  ++ jsOrStr ((r.projects.find? isDataProject).bind (fun p => p.name))
                       "your data project".toList
                  ++ " and the insights you discovered during your analysis.".toList
              else
                "Describe a data analysis project you worked on and the insights you discovered.".toList
            | none =>
              "Describe a data analysis project you worked on and the insights you discovered.".toList
          category := "Technical".toList }
      , { id := 9
          text := "How do you handle large datasets and ensure data quality?".toList
          category := "Technical".toList } ]
    else []
  let isLeadershipRole (e : PdfParser.ExperienceEntry) : Bool :=
    match e.title with
    | some t => jsIncludes (jsToLower t) "lead".toList
        || jsIncludes (jsToLower t) "manager".toList
    | none => false
  let leadQs : List Question :=
    if jsIncludes titleLower "manager".toList || jsIncludes titleLower "lead".toList
        || jsIncludes titleLower "director".toList then
      [ { id := 10
          text :=
            match rc with
            | some r =>
              if r.experience.any isLeadershipRole then
                "In your role as ".toList
                  ++ jsOrStr ((r.experience.find? isLeadershipRole).bind (fun e => e.title))
                       "a team lead".toList
                  ++ ", tell me about a time when you had to lead your team through a difficult project.".toList
              else
                "Tell me about a time when you had to lead a team through a difficult project.".toList
            | none =>
              "Tell me about a time when you had to lead a team through a difficult project.".toList
          category := "Leadership".toList }
      , { id := 11
          text := "How do you motivate team members and handle underperforming employees?".toList
          category := "Leadership".toList } ]
    else []
  softwareQs ++ dataQs ++ leadQs

/-- `generateSmartQuestions` (questions.ts lines 137-179): the five base
questions, then the role-specific questions, truncated to five. -/
def generateSmartQuestions (jobDetails : JobDetails)
    (resumeContent : Option PdfParser.ParsedResume) : List Question :=
  (baseQuestions jobDetails resumeContent
    ++ getRoleSpecificQuestions jobDetails.title jobDetails.requirements resumeContent).take 5

/-- The C8 scenario job. -/
def c8Job : JobDetails :=
  { title := "Software Engineer".toList, company := "TechCorp".toList,
    description := [], requirements := [] }

/-- The C8 scenario resume: one project named `Inventory Tracker`. -/
def c8Resume : PdfParser.ParsedResume :=
  { personalInfo := ⟨none, none, none, none⟩
    skills := []
    experience := []
    projects := [{ name := some "Inventory Tracker".toList,
                   description := none, technologies := none }]
    education := []
    certifications := []
    languages := [] }

end Questions

/-! ## Theorems -/

theorem mem_of_mem_jsSetDedupGo {α : Type} [DecidableEq α] :
    ∀ (l seen : List α) (x : α), x ∈ jsSetDedupGo seen l → x ∈ l := by
  intro l
  induction l with
  | nil => intro seen x h; simp [jsSetDedupGo] at h
  | cons y ys ih =>
    intro seen x h
    rw [jsSetDedupGo] at h
    by_cases hy : y ∈ seen
    · rw [if_pos hy] at h
      exact List.mem_cons_of_mem _ (ih seen x h)
    · rw [if_neg hy] at h
      rcases List.mem_cons.mp h with h1 | h2
      · exact h1 ▸ List.mem_cons_self _ _
      · exact List.mem_cons_of_mem _ (ih (y :: seen) x h2)

theorem not_mem_seen_of_mem_jsSetDedupGo {α : Type} [DecidableEq α] :
    ∀ (l seen : List α) (x : α), x ∈ jsSetDedupGo seen l → x ∉ seen := by
  intro l
  induction l with
  | nil => intro seen x h; simp [jsSetDedupGo] at h
  | cons y ys ih =>
    intro seen x h
    rw [jsSetDedupGo] at h
    by_cases hy : y ∈ seen
    · rw [if_pos hy] at h
      exact ih seen x h
    · rw [if_neg hy] at h
      rcases List.mem_cons.mp h with h1 | h2
      · exact h1 ▸ hy
      · intro hx
        exact ih (y :: seen) x h2 (List.mem_cons_of_mem _ hx)

theorem jsSetDedupGo_nodup {α : Type} [DecidableEq α] :
    ∀ (l seen : List α), (jsSetDedupGo seen l).Nodup := by
  intro l
  induction l with
  | nil => intro seen; simp [jsSetDedupGo]
  | cons y ys ih =>
    intro seen
    rw [jsSetDedupGo]
    by_cases hy : y ∈ seen
    · rw [if_pos hy]; exact ih seen
    · rw [if_neg hy]
      refine List.nodup_cons.mpr ⟨fun hmem => ?_, ih (y :: seen)⟩
      exact not_mem_seen_of_mem_jsSetDedupGo _ _ _ hmem (List.mem_cons_self _ _)

theorem jsSetDedup_nodup {α : Type} [DecidableEq α] (l : List α) :
    (jsSetDedup l).Nodup := jsSetDedupGo_nodup l []

theorem jsMin_eq_min (a b : ℚ) : jsMin a b = min a b := by
  simp [jsMin, min_def]

theorem jsMax_eq_max (a b : ℚ) : jsMax a b = max a b := by
  rw [jsMax, max_def]
  rcases le_or_lt b a with h | h
  · rw [if_pos h]
    rcases eq_or_lt_of_le h with rfl | hlt
    · simp
    · rw [if_neg (not_le_of_lt hlt)]
  · rw [if_neg (not_le_of_lt h), if_pos (le_of_lt h)]

namespace Performance

/-- `calculateScores` reads nothing but the seven classification/signal
counters of the analysis (and no part of `answers`/`jobDetails`). -/
theorem calculateScores_congr (ans ans' : List Answer) (jd jd' : JobDetails)
    (a a' : Analysis)
    (hn : a.nonsensicalAnswers = a'.nonsensicalAnswers)
    (hp : a.poorQualityAnswers = a'.poorQualityAnswers)
    (hm : a.meaningfulAnswers = a'.meaningfulAnswers)
    (ht : a.technicalTerms = a'.technicalTerms)
    (hps : a.problemSolving = a'.problemSolving)
    (hse : a.specificExamples = a'.specificExamples)
    (hc : a.communicationQuality = a'.communicationQuality) :
    calculateScores ans a jd = calculateScores ans' a' jd' := by
  unfold calculateScores
  rw [hn, hp, hm, ht, hps, hse, hc]

/-- C2: whenever the aggregate analysis reports at least one nonsensical
answer, `calculateScores` returns exactly `nonsensePenaltyScores` of the
nonsensical count — every score is a function of that count alone, no
positive signal (technicalTerms, problemSolving, specificExamples,
communicationQuality) is consulted — and in particular
overall ≤ min(15, count·5) and technical ≤ min(10, count·3). -/
theorem nonsensical_regime_scores (answers : List Answer) (jobDetails : JobDetails)
    (analysis : Analysis) (h : 1 ≤ analysis.nonsensicalAnswers) :
    calculateScores answers analysis jobDetails
        = nonsensePenaltyScores analysis.nonsensicalAnswers
      ∧ (calculateScores answers analysis jobDetails).overall
          ≤ jsMin 15 ((analysis.nonsensicalAnswers : ℚ) * 5)
      ∧ (calculateScores answers analysis jobDetails).technical
          ≤ jsMin 10 ((analysis.nonsensicalAnswers : ℚ) * 3) := by
  have hpos : 0 < analysis.nonsensicalAnswers := h
  have hmain : calculateScores answers analysis jobDetails
      = nonsensePenaltyScores analysis.nonsensicalAnswers := by
    unfold calculateScores nonsensePenaltyScores
    rw [if_pos hpos]
  exact ⟨hmain, le_of_eq (congrArg Scores.overall hmain),
    le_of_eq (congrArg Scores.technical hmain)⟩

/-- Witness for C2: with 2 nonsensical answers and maximal positive
signals the scores come out as (10, 6, 6, 8). -/
theorem nonsensical_regime_scores_witness :
    calculateScores [] c2Analysis demoJob = nonsensePenaltyScores 2
      ∧ nonsensePenaltyScores 2
          = { overall := 10, technical := 6, behavioral := 6, communication := 8 } :=
  ⟨(nonsensical_regime_scores [] demoJob c2Analysis (by decide)).1,
   by norm_num [nonsensePenaltyScores, jsMin]⟩

/-- In the poor-quality regime, the guarded weighted-signal expressions of
the source collapse to an unguarded clamp: when the count is zero both
sides are zero. -/
theorem signalStepEq (cond : Prop) [Decidable cond] (n : ℕ) (w : ℚ)
    (hiff : cond ↔ 0 < n) :
    (if cond then jsMin ((n : ℚ) * w) 100 else 0) = jsMin ((n : ℚ) * w) 100 := by
  by_cases h : cond
  · rw [if_pos h]
  · rw [if_neg h]
    have hn : n = 0 := Nat.eq_zero_of_not_pos (fun hp => h (hiff.mpr hp))
    subst hn
    norm_num [jsMin]

/-- C3 (amended): with no nonsensical answers and at least one
poor-quality answer, `calculateScores` returns `poorRegimeScores` — the
three component scores are penalized once, and the overall score is the
mean of the penalized components with the flat penalty subtracted a
second time, floored at 0. -/
theorem poor_quality_regime_scores (answers : List Answer) (jobDetails : JobDetails)
    (analysis : Analysis) (h0 : analysis.nonsensicalAnswers = 0)
    (h1 : 1 ≤ analysis.poorQualityAnswers) :
    calculateScores answers analysis jobDetails = poorRegimeScores analysis := by
  have hn0 : ¬ 0 < analysis.nonsensicalAnswers := by rw [h0]; exact lt_irrefl 0
  have e1 := signalStepEq (0 < analysis.technicalTerms) analysis.technicalTerms 15 Iff.rfl
  have e3 := signalStepEq (0 < analysis.communicationQuality) analysis.communicationQuality 20 Iff.rfl
  have e2 : (if 0 < analysis.problemSolving ∨ 0 < analysis.specificExamples then
        jsMin (((analysis.problemSolving : ℚ) + (analysis.specificExamples : ℚ)) * 12) 100
      else 0)
      = jsMin (((analysis.problemSolving : ℚ) + (analysis.specificExamples : ℚ)) * 12) 100 := by
    have hiff : (0 < analysis.problemSolving ∨ 0 < analysis.specificExamples)
        ↔ 0 < analysis.problemSolving + analysis.specificExamples := by
      constructor <;> omega
    have := signalStepEq _ (analysis.problemSolving + analysis.specificExamples) 12 hiff
    push_cast at this
    exact this
  unfold calculateScores poorRegimeScores
  rw [if_neg hn0, if_pos (show 0 < analysis.poorQualityAnswers from h1)]
  simp only [e1, e2, e3]

/-- Counterexample to C3 as stated: at `c3Analysis` the three penalized
component scores are 55, 40, 60 as the claim computes them, yet the
overall score is **not** their mean 155/3 — the flat 20-point penalty is
subtracted from the mean once more, giving 95/3. -/
theorem overall_mean_claim_counterexample :
    (calculateScores [] c3Analysis demoJob).technical = 55
      ∧ (calculateScores [] c3Analysis demoJob).behavioral = 40
      ∧ (calculateScores [] c3Analysis demoJob).communication = 60
      ∧ (calculateScores [] c3Analysis demoJob).overall ≠ (55 + 40 + 60) / 3
      ∧ (calculateScores [] c3Analysis demoJob).overall = (55 + 40 + 60) / 3 - 20 := by
  norm_num [calculateScores, c3Analysis, jsMin, jsMax]

/-- Witness for the amended C3 at the concrete analysis `c3Analysis`:
the scores equal `poorRegimeScores c3Analysis = (95/3, 55, 40, 60)`. -/
theorem poor_quality_regime_scores_witness :
    calculateScores [] c3Analysis demoJob = poorRegimeScores c3Analysis
      ∧ poorRegimeScores c3Analysis
          = { overall := 95/3, technical := 55, behavioral := 40, communication := 60 } :=
  ⟨poor_quality_regime_scores [] demoJob c3Analysis (by decide) (by decide),
   by norm_num [poorRegimeScores, c3Analysis, jsMin, jsMax]⟩

/-- C9: on the empty answer batch the deterministic fallback analysis
still produces a result, and all four rounded scores are 0.  (In the
source, `averageLength` is set by an unguarded division by
`answers.length`, i.e. JS `0/0 = NaN` here; no score consults it.) -/
theorem empty_batch_scores_zero {α : Type} (questions : List α)
    (jobDetails : JobDetails) :
    generateSmartAnalysisScores questions [] jobDetails = (0, 0, 0, 0) := by
  have hanal : analyzeAnswers [] = ⟨0, 0 / (0 : ℚ), 0, 0, 0, 0, 0, 0, 0, 0⟩ := rfl
  have hcalc : calculateScores [] (analyzeAnswers []) jobDetails = ⟨0, 0, 0, 0⟩ := by
    rw [hanal]
    norm_num [calculateScores, jsMin, jsMax]
  show (jsRound (calculateScores [] (analyzeAnswers []) jobDetails).overall,
        jsRound (calculateScores [] (analyzeAnswers []) jobDetails).technical,
        jsRound (calculateScores [] (analyzeAnswers []) jobDetails).behavioral,
        jsRound (calculateScores [] (analyzeAnswers []) jobDetails).communication)
      = (0, 0, 0, 0)
  rw [hcalc]
  norm_num [jsRound]

/-- Counterexample to C7 as stated: the single-answer batch does produce
technicalTerms ≥ 1, problemSolving ≥ 1 and experienceMentions ≥ 1, yet
`technicalScore` is 20 and `behavioralScore` is 15 — not > 50 and
not > 40. -/
theorem strong_answer_scores_counterexample :
    (analyzeAnswers [c7Answer]).technicalTerms = 1
      ∧ (analyzeAnswers [c7Answer]).problemSolving = 1
      ∧ (analyzeAnswers [c7Answer]).experienceMentions = 1
      ∧ ¬ 50 < (calculateScores [c7Answer] (analyzeAnswers [c7Answer]) demoJob).technical
      ∧ ¬ 40 < (calculateScores [c7Answer] (analyzeAnswers [c7Answer]) demoJob).behavioral := by
  have hc : calculateScores [c7Answer] (analyzeAnswers [c7Answer]) demoJob
      = calculateScores [] c7Counts demoJob :=
    calculateScores_congr _ _ _ _ _ _ (by decide) (by decide) (by decide)
      (by decide) (by decide) (by decide) (by decide)
  have hv : calculateScores [] c7Counts demoJob
      = { overall := 20, technical := 20, behavioral := 15, communication := 25 } := by
    norm_num [calculateScores, c7Counts, jsMin, jsMax]
  refine ⟨by decide, by decide, by decide, ?_, ?_⟩ <;> rw [hc, hv] <;> norm_num

/-- C7 (amended): for the single strong answer, each of the three signal
counters is exactly 1 (a signal counter increments at most once per
answer), and with the meaningful-regime weights that yields
technicalScore = 20 and behavioralScore = 15 (with communication 25 and
overall 20), not scores above 50 and 40. -/
theorem strong_answer_batch_scores :
    (analyzeAnswers [c7Answer]).technicalTerms = 1
      ∧ (analyzeAnswers [c7Answer]).problemSolving = 1
      ∧ (analyzeAnswers [c7Answer]).experienceMentions = 1
      ∧ calculateScores [c7Answer] (analyzeAnswers [c7Answer]) demoJob
          = { overall := 20, technical := 20, behavioral := 15, communication := 25 } := by
  have hc : calculateScores [c7Answer] (analyzeAnswers [c7Answer]) demoJob
      = calculateScores [] c7Counts demoJob :=
    calculateScores_congr _ _ _ _ _ _ (by decide) (by decide) (by decide)
      (by decide) (by decide) (by decide) (by decide)
  have hv : calculateScores [] c7Counts demoJob
      = { overall := 20, technical := 20, behavioral := 15, communication := 25 } := by
    norm_num [calculateScores, c7Counts, jsMin, jsMax]
  exact ⟨by decide, by decide, by decide, hc.trans hv⟩

end Performance

namespace PdfParser

/-- Counterexample to C5 as stated: on `c5Text` the extracted skills list
is `["PYTHON", "Python"]` — two entries that differ only in casing, so
the result is *not* deduplicated case-insensitively. -/
theorem skills_case_dedup_counterexample :
    extractSkills c5Text (linesOf c5Text) = ["PYTHON".toList, "Python".toList]
      ∧ "PYTHON".toList ≠ "Python".toList
      ∧ jsToLower "PYTHON".toList = jsToLower "Python".toList :=
  ⟨by decide, by decide, by decide⟩

/-- C5 (amended): for every input text and line list, the skills list
contains no two identical entries — the final JS `Set` deduplication is
exact (case-sensitive), so distinct casings of the same skill may both
appear, but each exact string appears at most once; and the extractor is
a pure function, so re-running it on the same text yields the same list. -/
theorem extractSkills_nodup (text : Str) (lines : List Str) :
    (extractSkills text lines).Nodup := by
  unfold extractSkills
  exact jsSetDedup_nodup _

theorem mem_langLoop : ∀ (lines : List Str) (b : Bool) (x : Str),
    x ∈ langLoop lines b → x ∈ commonLanguages := by
  intro lines
  induction lines with
  | nil => intro b x h; simp [langLoop] at h
  | cons l ls ih =>
    intro b x h
    rw [langLoop] at h
    split_ifs at h
    · exact ih true x h
    · simp at h
    · rcases List.mem_append.mp h with h1 | h2
      · exact List.mem_of_mem_filter h1
      · exact ih true x h2
    · exact ih false x h

/-- C10: every entry of the extracted language list is one of the nine
fixed all-lowercase vocabulary words (so the document's original casing
is never preserved), and the list contains no duplicates. -/
theorem extractLanguages_fixed_vocab (lines : List Str) :
    ((extractLanguages lines).all (fun l => decide (l ∈ commonLanguages))) = true
      ∧ (extractLanguages lines).Nodup := by
  constructor
  · rw [List.all_eq_true]
    intro x hx
    rw [decide_eq_true_eq]
    have hx' : x ∈ jsSetDedupGo [] (langLoop lines false) := hx
    exact mem_langLoop _ _ _ (mem_of_mem_jsSetDedupGo _ _ _ hx')
  · exact jsSetDedup_nodup _

/-- C1: for every text whose trimmed content is non-empty,
`parseResumeContent` succeeds (never signals an error) and returns the
record with all seven top-level fields assembled from the respective
extractors, each a total function. -/
theorem parseResumeContent_total (text : Str) (h : jsTrim text ≠ []) :
    parseResumeContent text = Except.ok
      { personalInfo := extractPersonalInfo (linesOf text)
        skills := extractSkills text (linesOf text)
        experience := extractExperience (linesOf text)
        projects := extractProjects (linesOf text)
        education := extractEducation (linesOf text)
        certifications := extractCertifications (linesOf text)
        languages := extractLanguages (linesOf text) } := by
  unfold parseResumeContent
  rw [if_neg (fun hlen => h (List.length_eq_zero.mp hlen))]

/-- Witness for C1 at the one-line text `John`. -/
theorem parseResumeContent_total_witness :
    jsTrim "John".toList ≠ []
      ∧ parseResumeContent "John".toList = Except.ok
        { personalInfo := extractPersonalInfo (linesOf "John".toList)
          skills := extractSkills "John".toList (linesOf "John".toList)
          experience := extractExperience (linesOf "John".toList)
          projects := extractProjects (linesOf "John".toList)
          education := extractEducation (linesOf "John".toList)
          certifications := extractCertifications (linesOf "John".toList)
          languages := extractLanguages (linesOf "John".toList) } :=
  ⟨by decide, parseResumeContent_total "John".toList (by decide)⟩

/-- C4: `parseResumeContent` signals the empty-input error exactly when
the whole input text is empty or whitespace-only; on every other input it
returns a (possibly sparse) parsed record. -/
theorem parseResumeContent_error_iff (text : Str) :
    parseResumeContent text = Except.error "Empty text provided for parsing"
      ↔ jsTrim text = [] := by
  unfold parseResumeContent
  by_cases hc : (jsTrim text).length = 0
  · rw [if_pos hc]
    simp [List.length_eq_zero.mp hc]
  · rw [if_neg hc]
    constructor
    · intro hEq; cases hEq
    · intro h; exact absurd (by rw [h]; rfl : (jsTrim text).length = 0) hc

end PdfParser

namespace SimpleParser

/-- C6: on the seven-line scenario input, `parseResumeContent` (the
variant whose experience heuristic splits on ` at ` / ` - `) succeeds and
returns name `John Doe`, email `john@x.com`, a phone containing
`555-123-4567`, skills including `Python`, `React`, `AWS` with that
casing, and a first experience entry with title `Software Engineer` and
company `Acme`. -/
theorem scenario_parse_fields :
    (parseResumeContent c6Text).toOption = some c6Resume
      ∧ c6Resume.personalInfo.name = some "John Doe".toList
      ∧ c6Resume.personalInfo.email = some "john@x.com".toList
      ∧ (match c6Resume.personalInfo.phone with
          | some p => jsIncludes p "555-123-4567".toList
          | none => false) = true
      ∧ "Python".toList ∈ c6Resume.skills
      ∧ "React".toList ∈ c6Resume.skills
      ∧ "AWS".toList ∈ c6Resume.skills
      ∧ (c6Resume.experience.getD 0 PdfParser.emptyExperienceEntry).title
          = some "Software Engineer".toList
      ∧ (c6Resume.experience.getD 0 PdfParser.emptyExperienceEntry).company
          = some "Acme".toList :=
  ⟨by decide, by decide, by decide, by decide, by decide, by decide, by decide,
   by decide, by decide⟩

end SimpleParser

namespace Questions

/-- C8: for every job and optional resume the generator returns exactly
the five base questions (the base questions always win the truncation
over role-specific ones, and the list has length exactly 5); and for the
`Software Engineer` scenario with one project named `Inventory Tracker`,
the list has length 5 and some question text contains
`Inventory Tracker`. -/
theorem generateSmartQuestions_five :
    (∀ (jd : JobDetails) (rc : Option PdfParser.ParsedResume),
        generateSmartQuestions jd rc = baseQuestions jd rc
          ∧ (generateSmartQuestions jd rc).length = 5)
      ∧ (generateSmartQuestions c8Job (some c8Resume)).length = 5
      ∧ (generateSmartQuestions c8Job (some c8Resume)).any
          (fun q => jsIncludes q.text "Inventory Tracker".toList) = true :=
  ⟨fun _ _ => ⟨rfl, rfl⟩, by decide, by decide⟩

end Questions

